import Mathlib

/-!
Shallow embedding of `edk2toolext/invocables/edk2_setup.py` (class
`Edk2PlatformSetup`), the submodule-setup invocable of edk2-pytool-extensions.

The external world (git subprocess calls, the filesystem) is modelled by a
`GitEnv` record giving the exit code and captured stdout of each `RunCmd`
invocation and the result of `os.path.exists`.  The embedding of `Go` returns
the outcome of the run (a normal integer return, or an uncaught Python
exception propagating out of `Go`) together with the ordered trace of
observable events: every `RunCmd` issued (its git argument string and working
directory) and every `ReportVersion` call to the version aggregator.
-/

namespace Edk2Setup

/-- String helper: Python `str.split(sep)` with an explicit one-character
separator keeps empty fields; structural recursion over the character list. -/
def splitCharAux (sep : Char) : List Char → List (List Char)
  | [] => [[]]
  | c :: cs =>
    let r := splitCharAux sep cs
    if c = sep then [] :: r
    else
      match r with
      | [] => [[c]]
      | g :: gs => (c :: g) :: gs

/-- Python `s.split(sep)` for a one-character separator. -/
def pySplit (sep : Char) (s : String) : List String :=
  (splitCharAux sep s.data).map fun cs => String.mk cs

/-- Python whitespace characters recognised by `str.strip()` (the subset that
can appear in captured git output). -/
def isPySpace (c : Char) : Bool :=
  c = ' ' || c = '\t' || c = '\n' || c = '\r'

/-- Python `s.strip()`: remove leading and trailing whitespace. -/
def pyStrip (s : String) : String :=
  String.mk (((s.data.dropWhile isPySpace).reverse.dropWhile isPySpace).reverse)

/-- Python `sep.join(parts)`. -/
def pyJoin (sep : String) : List String → String
  | [] => ""
  | [x] => x
  | x :: xs => x ++ sep ++ pyJoin sep xs

/-- Digits of a decimal literal accumulated into a `Nat`; `none` when a
non-digit occurs (Python `int(s)` raising `ValueError`). -/
def charsToNatAux : List Char → Nat → Option Nat
  | [], acc => some acc
  | c :: cs, acc =>
    if c.isDigit then charsToNatAux cs (acc * 10 + (c.toNat - '0'.toNat))
    else none

/-- Python `int(s)` restricted to plain decimal digit strings. -/
def pyToNat (s : String) : Option Nat :=
  match s.data with
  | [] => none
  | cs => charsToNatAux cs 0

/-- Boolean test that the character list p is an initial segment of s. -/
def hasStartChars : List Char → List Char → Bool
  | [], _ => true
  | _ :: _, [] => false
  | a :: as, b :: bs => a = b && hasStartChars as bs

/-- Boolean test that string p is an initial segment of string s. -/
def hasStart (p s : String) : Bool :=
  hasStartChars p.data s.data

/-- One git submodule descriptor (class `RequiredSubmodule` in the source):
a workspace-relative path and whether recursion should be used. -/
structure RequiredSubmodule where
  path : String
  recursive : Bool := true
deriving Repr, DecidableEq

/-- Categories of the version aggregator (`version_aggregator.VersionTypes`);
this module only uses `TOOL`. -/
inductive VersionTypes where
  | TOOL
deriving Repr, DecidableEq

/-- Observable events of a run: a `RunCmd` of the git executable with its
argument string and optional working directory, or a `ReportVersion` call on
the process-wide version aggregator. -/
inductive Event where
  | cmd (params : String) (workingdir : Option String)
  | report (name : String) (version : String) (vtype : VersionTypes)
deriving Repr, DecidableEq

/-- Whether an event is a subprocess invocation (as opposed to a registry
report). -/
def Event.isRunCmd : Event → Bool
  | .cmd _ _ => true
  | .report _ _ _ => false

/-- Whether an event is a `ReportVersion` call. -/
def Event.isReport : Event → Bool
  | .cmd _ _ => false
  | .report _ _ _ => true

/-- Whether an event is a `git submodule sync` invocation. -/
def Event.isSyncCmd : Event → Bool
  | .cmd p _ => hasStart "submodule sync" p
  | .report _ _ _ => false

/-- Whether an event is a `git diff` invocation. -/
def Event.isDiffCmd : Event → Bool
  | .cmd p _ => hasStart "diff" p
  | .report _ _ _ => false

/-- Whether an event is a `git submodule update --init` invocation (a fetch). -/
def Event.isUpdateCmd : Event → Bool
  | .cmd p _ => hasStart "submodule update" p
  | .report _ _ _ => false

/-- Whether an event is a `git clean` invocation. -/
def Event.isCleanCmd : Event → Bool
  | .cmd p _ => hasStart "clean" p
  | .report _ _ _ => false

/-- The working directory of a subprocess event (`none` for the version query,
which passes no working directory, and for registry reports). -/
def Event.workdir : Event → Option String
  | .cmd _ w => w
  | .report _ _ _ => none

/-- The external world of one run: the exit code and the captured stdout of a
`RunCmd` of git, keyed by argument string and working directory, and the
filesystem query `os.path.exists`. -/
structure GitEnv where
  runExit : String → Option String → Int
  runOutput : String → Option String → String
  pathExists : String → Bool

/-- Outcome of `Go`: a normal integer return, or an uncaught Python exception
(`RuntimeError`, `IndexError`, `ValueError`) propagating out of the method. -/
inductive GoOutcome where
  | ret (code : Int)
  | raised (msg : String)
deriving Repr, DecidableEq

/-- Modelled from the spec: lexicographic comparison of two parsed version
component lists, numeric per component (positive when the first is newer,
negative when older, zero when equal; a longer list with an equal front is
newer, matching Python tuple comparison). -/
def compareVersionLists : List Nat → List Nat → Int
  | [], [] => 0
  | [], _ :: _ => -1
  | _ :: _, [] => 1
  | x :: xs, y :: ys =>
    if x < y then -1 else if y < x then 1 else compareVersionLists xs ys

/-- Modelled from the spec: `version_compare` is imported from
`edk2toollib.utility_functions`, whose source is not part of this slice; the
spec describes it as semantic version comparison — numeric per-component
comparison, not string comparison — with a positive result iff the first
argument is newer. `none` models the `ValueError` Python raises when a
component is not numeric. -/
def version_compare (a b : String) : Option Int :=
  match (pySplit '.' a).mapM pyToNat, (pySplit '.' b).mapM pyToNat with
  | some xs, some ys => some (compareVersionLists xs ys)
  | _, _ => none

/-- `GetLoggingFileName`: the fixed base identifier (`SETUPLOG`) of the log
files of this invocable, for every logger type. -/
def GetLoggingFileName (_loggerType : String) : String :=
  "SETUPLOG"

/-- The `-e` exclusion arguments of the root clean (source line 133):
`"-e Build/%s.txt -e Build/%s.md" % (GetLoggingFileName('txt'),
GetLoggingFileName('md'))`. -/
def ignore_files : String :=
  "-e Build/" ++ GetLoggingFileName "txt" ++ ".txt -e Build/" ++
    GetLoggingFileName "md" ++ ".md"

/-- `os.path.normpath(os.path.join(workspace_path, p))` for a relative
submodule path `p`; `normpath` is treated as the identity on the already
normal inputs this module produces. -/
def resolveSubmodulePath (workspace_path p : String) : String :=
  workspace_path ++ "/" ++ p

/-- The minimum supported git version (source line 119). -/
def min_git : String :=
  "2.11.0"

/-- The argument string of the per-submodule fetch command (source lines
206–212): `submodule update --init`, plus `--recursive` when requested, plus
`--progress`, plus `--reference <omnicache>` when an omnicache path is set,
plus the submodule path. -/
def fetchCmdString (omnicache_path : Option String)
    (required_submodule : RequiredSubmodule) : String :=
  let cmd_string := "submodule update --init"
  let cmd_string :=
    if required_submodule.recursive then cmd_string ++ " --recursive" else cmd_string
  let cmd_string := cmd_string ++ " --progress"
  let cmd_string :=
    match omnicache_path with
    | some p => cmd_string ++ " --reference " ++ p
    | none => cmd_string
  cmd_string ++ " " ++ required_submodule.path

/-- STEP 2b of the per-submodule loop (source lines 204–217): when not
skipping (or when forcing), run the fetch command; a non-zero exit raises
`RuntimeError`, which the per-submodule handler turns into result `-1`. -/
def fetchStep (env : GitEnv) (workspace_path : String)
    (omnicache_path : Option String) (required_submodule : RequiredSubmodule)
    (skip_repo force_it : Bool) : List Event × Int :=
  if !skip_repo || force_it then
    let cmd_string := fetchCmdString omnicache_path required_submodule
    let e := Event.cmd cmd_string (some workspace_path)
    if env.runExit cmd_string (some workspace_path) ≠ 0 then
      ([e], -1)
    else
      ([e], 0)
  else
    ([], 0)

/-- The body of one iteration of the per-submodule loop (source lines
179–225), `try` block and `except RuntimeError` handler included: returns the
events of this iteration and this iteration's contribution to `result`
(`0`, or `-1` when the handler fired). -/
def processSubmodule (env : GitEnv) (workspace_path : String) (force_it : Bool)
    (omnicache_path : Option String) (required_submodule : RequiredSubmodule) :
    List Event × Int :=
  let required_submodule_path :=
    resolveSubmodulePath workspace_path required_submodule.path
  if env.pathExists required_submodule_path && !force_it then
    let diffParams := "diff " ++ required_submodule.path
    let e := Event.cmd diffParams (some workspace_path)
    if env.runExit diffParams (some workspace_path) ≠ 0 then
      ([e], -1)
    else
      let git_data := pyStrip (env.runOutput diffParams (some workspace_path))
      let skip_repo := git_data != ""
      let f := fetchStep env workspace_path omnicache_path required_submodule skip_repo force_it
      (e :: f.1, f.2)
  else
    fetchStep env workspace_path omnicache_path required_submodule false force_it

/-- STEP 2 of `Go` (source lines 177–225): iterate over all required
submodules, threading the accumulated `result` (set to `-1` whenever one
iteration's handler fired, never reset). -/
def updateSubmodules (env : GitEnv) (workspace_path : String) (force_it : Bool)
    (omnicache_path : Option String) :
    List RequiredSubmodule → Int → List Event × Int
  | [], result => ([], result)
  | required_submodule :: rest, result =>
    let p := processSubmodule env workspace_path force_it omnicache_path required_submodule
    let result := if p.2 ≠ 0 then -1 else result
    let u := updateSubmodules env workspace_path force_it omnicache_path rest result
    (p.1 ++ u.1, u.2)

/-- Cleaning of the submodule repos during the force-clean stage (source lines
140–150): `reset --hard` then `clean -xffd` in each resolved submodule path;
the first non-zero exit raises `RuntimeError` out of the loop. -/
def cleanSubmodules (env : GitEnv) (workspace_path : String) :
    List RequiredSubmodule → List Event × Bool
  | [] => ([], true)
  | required_submodule :: rest =>
    let required_submodule_path :=
      resolveSubmodulePath workspace_path required_submodule.path
    let e1 := Event.cmd "reset --hard" (some required_submodule_path)
    if env.runExit "reset --hard" (some required_submodule_path) ≠ 0 then
      ([e1], false)
    else
      let e2 := Event.cmd "clean -xffd" (some required_submodule_path)
      if env.runExit "clean -xffd" (some required_submodule_path) ≠ 0 then
        ([e1, e2], false)
      else
        let c := cleanSubmodules env workspace_path rest
        (e1 :: e2 :: c.1, c.2)

/-- The `try` body of the force-clean stage (source lines 127–151): hard reset
and excluded clean of the root repo, then cleaning of every submodule repo;
the Boolean is `false` when a `RuntimeError` was raised (the handler at lines
152–156 then returns `-1`). The `if required_submodules:` guard of line 140 is
behaviourally the identity, since iterating an empty list issues nothing. -/
def forceCleanStage (env : GitEnv) (workspace_path : String)
    (required_submodules : List RequiredSubmodule) : List Event × Bool :=
  let e1 := Event.cmd "reset --hard" (some workspace_path)
  if env.runExit "reset --hard" (some workspace_path) ≠ 0 then
    ([e1], false)
  else
    let cleanParams := "clean -xffd " ++ ignore_files
    let e2 := Event.cmd cleanParams (some workspace_path)
    if env.runExit cleanParams (some workspace_path) ≠ 0 then
      ([e1, e2], false)
    else
      let c := cleanSubmodules env workspace_path required_submodules
      (e1 :: e2 :: c.1, c.2)

/-- Source lines 158–227: `result = 0`, the sync step (only when the
required-submodule list is non-empty; its `RuntimeError` handler returns
`-1`), then the per-submodule loop, then `return result`. -/
def syncAndUpdate (env : GitEnv) (required_submodules : List RequiredSubmodule)
    (workspace_path : String) (force_it : Bool) (omnicache_path : Option String) :
    GoOutcome × List Event :=
  if required_submodules.length > 0 then
    let submodule_string := pyJoin " " (required_submodules.map fun x => x.path)
    let syncParams := "submodule sync -- " ++ submodule_string
    let esync := Event.cmd syncParams (some workspace_path)
    if env.runExit syncParams (some workspace_path) ≠ 0 then
      (.ret (-1), [esync])
    else
      let u :=
        updateSubmodules env workspace_path force_it omnicache_path required_submodules 0
      (.ret u.2, esync :: u.1)
  else
    (.ret 0, [])

/-- The embedding of `Edk2PlatformSetup.Go` (source lines 107–227).
Parameters model the instance state: the required-submodule list returned by
the settings manager, the workspace root, and the `force_it` and
`omnicache_path` fields set by `RetrieveCommandLineOptions`. Returns the
outcome — a normal integer return, or an uncaught Python exception
(`RuntimeError` from the failed `git --version` call or the version gate,
`IndexError` from token indexing, `ValueError` from `version_compare`) — and
the ordered trace of issued commands and registry reports. -/
def Go (env : GitEnv) (required_submodules : List RequiredSubmodule)
    (workspace_path : String) (force_it : Bool) (omnicache_path : Option String) :
    GoOutcome × List Event :=
  let e0 := Event.cmd "--version" none
  if env.runExit "--version" none ≠ 0 then
    (.raised "RuntimeError: git --version returned a non-zero exit code", [e0])
  else
    let git_version := pyStrip (env.runOutput "--version" none)
    let pre := [e0, Event.report "Git" git_version VersionTypes.TOOL]
    match (pySplit ' ' git_version)[2]? with
    | none => (.raised "IndexError: list index out of range", pre)
    | some tok =>
      let cur_git := pyJoin "." ((pySplit '.' tok).take 3)
      match version_compare min_git cur_git with
      | none => (.raised "ValueError: invalid literal for int", pre)
      | some c =>
        if c > 0 then
          (.raised ("Please upgrade Git! Current version is " ++ cur_git ++
            ". Minimum is " ++ min_git ++ "."), pre)
        else
          if force_it then
            let fc := forceCleanStage env workspace_path required_submodules
            if fc.2 then
              let su :=
                syncAndUpdate env required_submodules workspace_path force_it omnicache_path
              (su.1, pre ++ fc.1 ++ su.2)
            else
              (.ret (-1), pre ++ fc.1)
          else
            let su :=
              syncAndUpdate env required_submodules workspace_path force_it omnicache_path
            (su.1, pre ++ su.2)

/-- The common trace prefix of every run whose `git --version` call succeeds:
the version query followed by the `ReportVersion` call on the version
aggregator. -/
def goPre (env : GitEnv) : List Event :=
  [Event.cmd "--version" none,
   Event.report "Git" (pyStrip (env.runOutput "--version" none)) VersionTypes.TOOL]

/-- The command-line inputs consumed by `RetrieveCommandLineOptions`: the
parsed `--force` flag and `--omnicache` value (`None` when neither the option
nor the `OMNICACHE_PATH` environment variable is set). -/
structure Args where
  force : Bool
  omnicache_path : Option String
deriving Repr, DecidableEq

/-- The instance state set by `RetrieveCommandLineOptions`, plus whether the
invalid-omnicache warning was logged. -/
structure CmdLineOptions where
  force_it : Bool
  omnicache_path : Option String
  warned : Bool
deriving Repr, DecidableEq

/-- The embedding of `Edk2PlatformSetup.RetrieveCommandLineOptions` (source
lines 81–89): stores the force flag; an omnicache path that is set but does
not exist on disk is logged as a warning and replaced by `None`. -/
def RetrieveCommandLineOptions (env : GitEnv) (args : Args) : CmdLineOptions :=
  match args.omnicache_path with
  | some p =>
    if env.pathExists p then ⟨args.force, some p, false⟩
    else ⟨args.force, none, true⟩
  | none => ⟨args.force, none, false⟩

/-- A test world in which every command succeeds, `git --version` prints
`ver`, every captured output is otherwise empty, and every path exists. -/
def envOk (ver : String) : GitEnv where
  runExit := fun _ _ => 0
  runOutput := fun p _ => if p = "--version" then ver else ""
  pathExists := fun _ => true

/-- A test world in which every command succeeds, every path exists, and every
`git diff` prints a non-empty difference (every submodule is dirty). -/
def envDirty (ver : String) : GitEnv where
  runExit := fun _ _ => 0
  runOutput := fun p _ =>
    if p = "--version" then ver
    else if hasStart "diff" p then "diff --git a/f b/f" else ""
  pathExists := fun _ => true

/-- A test world in which no submodule path exists yet and exactly the fetch
of the submodule at `badPath` (recursive descriptor) fails. -/
def envFetchFail (ver badPath : String) : GitEnv where
  runExit := fun p _ =>
    if p = "submodule update --init --recursive --progress " ++ badPath then 1 else 0
  runOutput := fun p _ => if p = "--version" then ver else ""
  pathExists := fun _ => false

/-- A test world in which the hard reset of the force-clean stage fails and
everything else succeeds. -/
def envCleanFail (ver : String) : GitEnv where
  runExit := fun p _ => if p = "reset --hard" then 1 else 0
  runOutput := fun p _ => if p = "--version" then ver else ""
  pathExists := fun _ => true

end Edk2Setup

namespace Edk2Setup

lemma hasStartChars_append_self : ∀ (a rest : List Char), hasStartChars a (a ++ rest) = true
  | [], _ => rfl
  | c :: cs, rest => by simp [hasStartChars, hasStartChars_append_self cs rest]

lemma hasStartChars_cancel : ∀ (common a b : List Char),
    hasStartChars (common ++ a) (common ++ b) = hasStartChars a b
  | [], _, _ => rfl
  | c :: cs, a, b => by simp [hasStartChars, hasStartChars_cancel cs a b]

lemma hasStart_of_chunk (p s : String) (rest : List Char)
    (h : s.data = p.data ++ rest) : hasStart p s = true := by
  simp [hasStart, h, hasStartChars_append_self]

lemma hasStart_ne_head (p s : String) (c : Char) (pc : List Char) (d : Char) (sc : List Char)
    (hp : p.data = c :: pc) (hs : s.data = d :: sc) (h : c ≠ d) : hasStart p s = false := by
  simp [hasStart, hp, hs, hasStartChars, h]

lemma data_append_cons (a : String) (c : Char) (t : List Char)
    (h : a.data = c :: t) (s : String) : (a ++ s).data = c :: (t ++ s.data) := by
  rw [String.data_append, h]; rfl

lemma isUpdateCmd_sync (s : String) (w : Option String) :
    (Event.cmd ("submodule sync -- " ++ s) w).isUpdateCmd = false := by
  show hasStart "submodule update" ("submodule sync -- " ++ s) = false
  show hasStartChars "submodule update".data ("submodule sync -- " ++ s).data = false
  have hs : ("submodule sync -- " ++ s).data
      = "submodule ".data ++ ('s' :: ("ync -- ".data ++ s.data)) := by
    rw [String.data_append,
      show "submodule sync -- ".data = "submodule ".data ++ ('s' :: "ync -- ".data) by decide,
      List.append_assoc]
    rfl
  have hp : "submodule update".data = "submodule ".data ++ ('u' :: "pdate".data) := by decide
  rw [hp, hs, hasStartChars_cancel]
  have hne : ('u' : Char) ≠ 's' := by decide
  simp [hasStartChars, hne]

lemma isUpdateCmd_diff (s : String) (w : Option String) :
    (Event.cmd ("diff " ++ s) w).isUpdateCmd = false := by
  show hasStart "submodule update" ("diff " ++ s) = false
  exact hasStart_ne_head _ _ 's' "ubmodule update".data 'd' ("iff ".data ++ s.data)
    (by decide) (data_append_cons _ 'd' "iff ".data (by decide) s) (by decide)

lemma isCleanCmd_sync (s : String) (w : Option String) :
    (Event.cmd ("submodule sync -- " ++ s) w).isCleanCmd = false := by
  show hasStart "clean" ("submodule sync -- " ++ s) = false
  exact hasStart_ne_head _ _ 'c' "lean".data 's' ("ubmodule sync -- ".data ++ s.data)
    (by decide) (data_append_cons _ 's' "ubmodule sync -- ".data (by decide) s) (by decide)

lemma isCleanCmd_diff (s : String) (w : Option String) :
    (Event.cmd ("diff " ++ s) w).isCleanCmd = false := by
  show hasStart "clean" ("diff " ++ s) = false
  exact hasStart_ne_head _ _ 'c' "lean".data 'd' ("iff ".data ++ s.data)
    (by decide) (data_append_cons _ 'd' "iff ".data (by decide) s) (by decide)

lemma fetchCmdString_none_rec (sm : RequiredSubmodule) (h : sm.recursive = true) :
    fetchCmdString none sm = "submodule update --init --recursive --progress " ++ sm.path := by
  simp only [fetchCmdString, h, if_true]
  exact congrArg (fun t => t ++ sm.path) (by decide)

lemma fetchCmdString_none_norec (sm : RequiredSubmodule) (h : sm.recursive = false) :
    fetchCmdString none sm = "submodule update --init --progress " ++ sm.path := by
  simp only [fetchCmdString, h, if_false]
  exact congrArg (fun t => t ++ sm.path) (by decide)

lemma fetchCmdString_some_rec (p : String) (sm : RequiredSubmodule) (h : sm.recursive = true) :
    fetchCmdString (some p) sm
      = (("submodule update --init --recursive --progress --reference " ++ p) ++ " ") ++ sm.path := by
  simp only [fetchCmdString, h, if_true]
  exact congrArg (fun t => ((t ++ p) ++ " ") ++ sm.path) (by decide)

lemma fetchCmdString_some_norec (p : String) (sm : RequiredSubmodule) (h : sm.recursive = false) :
    fetchCmdString (some p) sm
      = (("submodule update --init --progress --reference " ++ p) ++ " ") ++ sm.path := by
  simp only [fetchCmdString, h, if_false]
  exact congrArg (fun t => ((t ++ p) ++ " ") ++ sm.path) (by decide)

lemma fetchCmdString_data (o : Option String) (sm : RequiredSubmodule) :
    ∃ rest, (fetchCmdString o sm).data = "submodule update".data ++ rest := by
  rcases o with _ | p <;> cases hrec : sm.recursive
  · refine ⟨" --init --progress ".data ++ sm.path.data, ?_⟩
    rw [fetchCmdString_none_norec sm hrec, String.data_append,
      show "submodule update --init --progress ".data
        = "submodule update".data ++ " --init --progress ".data by decide,
      List.append_assoc]
  · refine ⟨" --init --recursive --progress ".data ++ sm.path.data, ?_⟩
    rw [fetchCmdString_none_rec sm hrec, String.data_append,
      show "submodule update --init --recursive --progress ".data
        = "submodule update".data ++ " --init --recursive --progress ".data by decide,
      List.append_assoc]
  · refine ⟨" --init --progress --reference ".data ++ p.data ++ " ".data ++ sm.path.data, ?_⟩
    rw [fetchCmdString_some_norec p sm hrec, String.data_append, String.data_append,
      String.data_append,
      show "submodule update --init --progress --reference ".data
        = "submodule update".data ++ " --init --progress --reference ".data by decide]
    simp [List.append_assoc]
  · refine ⟨" --init --recursive --progress --reference ".data ++ p.data ++ " ".data
      ++ sm.path.data, ?_⟩
    rw [fetchCmdString_some_rec p sm hrec, String.data_append, String.data_append,
      String.data_append,
      show "submodule update --init --recursive --progress --reference ".data
        = "submodule update".data ++ " --init --recursive --progress --reference ".data by decide]
    simp [List.append_assoc]

lemma isUpdateCmd_fetch (o : Option String) (sm : RequiredSubmodule) (w : Option String) :
    (Event.cmd (fetchCmdString o sm) w).isUpdateCmd = true := by
  obtain ⟨rest, h⟩ := fetchCmdString_data o sm
  show hasStart "submodule update" (fetchCmdString o sm) = true
  exact hasStart_of_chunk _ _ rest h

lemma isCleanCmd_fetch (o : Option String) (sm : RequiredSubmodule) (w : Option String) :
    (Event.cmd (fetchCmdString o sm) w).isCleanCmd = false := by
  obtain ⟨rest, h⟩ := fetchCmdString_data o sm
  show hasStart "clean" (fetchCmdString o sm) = false
  refine hasStart_ne_head _ _ 'c' "lean".data 's' ("ubmodule update".data ++ rest)
    (by decide) ?_ (by decide)
  rw [h, show "submodule update".data = 's' :: "ubmodule update".data by decide]
  rfl

lemma resolveSubmodulePath_ne (ws p : String) : resolveSubmodulePath ws p ≠ ws := by
  intro h
  have hl := congrArg String.length h
  rw [resolveSubmodulePath, String.length_append, String.length_append,
    show "/".length = 1 by decide] at hl
  omega

end Edk2Setup

namespace Edk2Setup

lemma fetchStep_events (env : GitEnv) (ws : String) (o : Option String)
    (sm : RequiredSubmodule) (skip f : Bool) :
    ∀ e ∈ (fetchStep env ws o sm skip f).1,
      e = Event.cmd (fetchCmdString o sm) (some ws) := by
  intro e he
  unfold fetchStep at he
  dsimp only at he
  split at he
  · split at he <;> simpa using he
  · simp at he

lemma processSubmodule_events (env : GitEnv) (ws : String) (f : Bool) (o : Option String)
    (sm : RequiredSubmodule) :
    ∀ e ∈ (processSubmodule env ws f o sm).1,
      e = Event.cmd ("diff " ++ sm.path) (some ws)
      ∨ e = Event.cmd (fetchCmdString o sm) (some ws) := by
  intro e he
  unfold processSubmodule at he
  dsimp only at he
  split at he
  · split at he
    · simp at he
      exact Or.inl he
    · rcases List.mem_cons.mp he with h | h
      · exact Or.inl h
      · exact Or.inr (fetchStep_events env ws o sm _ f e h)
  · exact Or.inr (fetchStep_events env ws o sm false f e he)

lemma updateSubmodules_events (env : GitEnv) (ws : String) (f : Bool) (o : Option String) :
    ∀ (subs : List RequiredSubmodule) (init : Int),
      (updateSubmodules env ws f o subs init).1
        = (subs.map fun sm => (processSubmodule env ws f o sm).1).flatten := by
  intro subs
  induction subs with
  | nil => intro init; rfl
  | cons sm rest ih =>
    intro init
    simp only [updateSubmodules, List.map_cons, List.flatten_cons]
    rw [ih]

lemma updateSubmodules_result (env : GitEnv) (ws : String) (f : Bool) (o : Option String) :
    ∀ (subs : List RequiredSubmodule) (init : Int),
      (updateSubmodules env ws f o subs init).2
        = if subs.any (fun sm => (processSubmodule env ws f o sm).2 != 0) then -1 else init := by
  intro subs
  induction subs with
  | nil => intro init; simp [updateSubmodules]
  | cons sm rest ih =>
    intro init
    by_cases h : (processSubmodule env ws f o sm).2 = 0
    · simp [updateSubmodules, ih, h]
    · simp [updateSubmodules, ih, h]

lemma cleanSubmodules_events (env : GitEnv) (ws : String) :
    ∀ (subs : List RequiredSubmodule), ∀ e ∈ (cleanSubmodules env ws subs).1,
      ∃ sm, sm ∈ subs
        ∧ (e = Event.cmd "reset --hard" (some (resolveSubmodulePath ws sm.path))
           ∨ e = Event.cmd "clean -xffd" (some (resolveSubmodulePath ws sm.path))) := by
  intro subs
  induction subs with
  | nil => intro e he; simp [cleanSubmodules] at he
  | cons sm rest ih =>
    intro e he
    unfold cleanSubmodules at he
    dsimp only at he
    split at he
    · simp at he
      exact ⟨sm, List.mem_cons_self sm rest, Or.inl he⟩
    · split at he
      · simp at he
        rcases he with h | h
        · exact ⟨sm, List.mem_cons_self sm rest, Or.inl h⟩
        · exact ⟨sm, List.mem_cons_self sm rest, Or.inr h⟩
      · simp only [List.mem_cons] at he
        rcases he with h | h | h
        · exact ⟨sm, List.mem_cons_self sm rest, Or.inl h⟩
        · exact ⟨sm, List.mem_cons_self sm rest, Or.inr h⟩
        · obtain ⟨sm2, hmem, hsh⟩ := ih e h
          exact ⟨sm2, List.mem_cons_of_mem sm hmem, hsh⟩

lemma cleanSubmodules_mem (env : GitEnv) (ws : String) :
    ∀ (subs : List RequiredSubmodule), (cleanSubmodules env ws subs).2 = true →
      ∀ sm ∈ subs,
        Event.cmd "clean -xffd" (some (resolveSubmodulePath ws sm.path))
          ∈ (cleanSubmodules env ws subs).1 := by
  intro subs
  induction subs with
  | nil => intro _ sm hm; simp at hm
  | cons sm0 rest ih =>
    intro hok sm hm
    unfold cleanSubmodules at hok ⊢
    dsimp only at hok ⊢
    by_cases h1 : env.runExit "reset --hard" (some (resolveSubmodulePath ws sm0.path)) ≠ 0
    · rw [if_pos h1] at hok
      simp at hok
    · rw [if_neg h1] at hok ⊢
      by_cases h2 : env.runExit "clean -xffd" (some (resolveSubmodulePath ws sm0.path)) ≠ 0
      · rw [if_pos h2] at hok
        simp at hok
      · rw [if_neg h2] at hok ⊢
        dsimp only at hok ⊢
        rcases List.mem_cons.mp hm with h | h
        · subst h
          simp
        · simp only [List.mem_cons]
          exact Or.inr (Or.inr (ih hok sm h))

lemma forceCleanStage_events (env : GitEnv) (ws : String)
    (subs : List RequiredSubmodule) :
    ∀ e ∈ (forceCleanStage env ws subs).1,
      e = Event.cmd "reset --hard" (some ws)
      ∨ e = Event.cmd ("clean -xffd " ++ ignore_files) (some ws)
      ∨ ∃ sm, sm ∈ subs
          ∧ (e = Event.cmd "reset --hard" (some (resolveSubmodulePath ws sm.path))
             ∨ e = Event.cmd "clean -xffd" (some (resolveSubmodulePath ws sm.path))) := by
  intro e he
  unfold forceCleanStage at he
  dsimp only at he
  split at he
  · simp at he
    exact Or.inl he
  · split at he
    · simp at he
      rcases he with h | h
      · exact Or.inl h
      · exact Or.inr (Or.inl h)
    · simp only [List.mem_cons] at he
      rcases he with h | h | h
      · exact Or.inl h
      · exact Or.inr (Or.inl h)
      · obtain ⟨sm, hmem, hsh⟩ := cleanSubmodules_events env ws subs e h
        exact Or.inr (Or.inr ⟨sm, hmem, hsh⟩)

lemma forceCleanStage_cleanRoot_mem (env : GitEnv) (ws : String)
    (subs : List RequiredSubmodule)
    (hreset : env.runExit "reset --hard" (some ws) = 0) :
    Event.cmd ("clean -xffd " ++ ignore_files) (some ws) ∈ (forceCleanStage env ws subs).1 := by
  unfold forceCleanStage
  dsimp only
  rw [hreset]
  simp only [ne_eq, not_true_eq_false, if_neg, reduceCtorEq, reduceIte]
  split <;> simp

lemma syncAndUpdate_fst (env : GitEnv) (subs : List RequiredSubmodule) (ws : String)
    (f : Bool) (o : Option String) :
    ∃ r : Int, (syncAndUpdate env subs ws f o).1 = .ret r := by
  unfold syncAndUpdate
  dsimp only
  split
  · split
    · exact ⟨-1, rfl⟩
    · exact ⟨_, rfl⟩
  · exact ⟨0, rfl⟩

lemma processSubmodule_force (env : GitEnv) (ws : String) (o : Option String)
    (sm : RequiredSubmodule) :
    processSubmodule env ws true o sm
      = ([Event.cmd (fetchCmdString o sm) (some ws)],
         if env.runExit (fetchCmdString o sm) (some ws) ≠ 0 then -1 else 0) := by
  unfold processSubmodule fetchStep
  dsimp only
  simp only [Bool.not_true, Bool.and_false, Bool.false_eq_true, if_false, Bool.not_false,
    Bool.false_or, Bool.or_true, if_true]
  split <;> rfl

end Edk2Setup

namespace Edk2Setup

lemma updateSubmodules_result_mem (env : GitEnv) (ws : String) (f : Bool)
    (o : Option String) (subs : List RequiredSubmodule) :
    (updateSubmodules env ws f o subs 0).2 = 0 ∨ (updateSubmodules env ws f o subs 0).2 = -1 := by
  rw [updateSubmodules_result]
  split
  · right; rfl
  · left; rfl

lemma syncAndUpdate_ret_cases (env : GitEnv) (subs : List RequiredSubmodule) (ws : String)
    (f : Bool) (o : Option String) :
    (syncAndUpdate env subs ws f o).1 = .ret 0 ∨ (syncAndUpdate env subs ws f o).1 = .ret (-1) := by
  unfold syncAndUpdate
  dsimp only
  split
  · split
    · right; rfl
    · rcases updateSubmodules_result_mem env ws f o subs with h | h
      · left; rw [h]
      · right; rw [h]
  · left; rfl

lemma Go_gate_pass (env : GitEnv) (subs : List RequiredSubmodule) (ws : String)
    (force : Bool) (omni : Option String) (tok : String) (c : Int)
    (hv : env.runExit "--version" none = 0)
    (htok : (pySplit ' ' (pyStrip (env.runOutput "--version" none)))[2]? = some tok)
    (hcmp : version_compare min_git (pyJoin "." ((pySplit '.' tok).take 3)) = some c)
    (hc : ¬ c > 0) :
    Go env subs ws force omni =
      if force then
        if (forceCleanStage env ws subs).2 then
          ((syncAndUpdate env subs ws force omni).1,
            goPre env ++ (forceCleanStage env ws subs).1
              ++ (syncAndUpdate env subs ws force omni).2)
        else (.ret (-1), goPre env ++ (forceCleanStage env ws subs).1)
      else
        ((syncAndUpdate env subs ws force omni).1,
          goPre env ++ (syncAndUpdate env subs ws force omni).2) := by
  unfold Go
  dsimp only
  rw [hv]
  rw [if_neg (by simp)]
  rw [htok]
  dsimp only
  rw [hcmp]
  dsimp only
  rw [if_neg hc]
  simp only [goPre]

lemma Go_gate_fail (env : GitEnv) (subs : List RequiredSubmodule) (ws : String)
    (force : Bool) (omni : Option String) (tok : String) (c : Int)
    (hv : env.runExit "--version" none = 0)
    (htok : (pySplit ' ' (pyStrip (env.runOutput "--version" none)))[2]? = some tok)
    (hcmp : version_compare min_git (pyJoin "." ((pySplit '.' tok).take 3)) = some c)
    (hc : c > 0) :
    Go env subs ws force omni =
      (.raised ("Please upgrade Git! Current version is "
          ++ pyJoin "." ((pySplit '.' tok).take 3) ++ ". Minimum is " ++ min_git ++ "."),
        goPre env) := by
  unfold Go
  dsimp only
  rw [hv]
  rw [if_neg (by simp)]
  rw [htok]
  dsimp only
  rw [hcmp]
  dsimp only
  rw [if_pos hc]
  simp only [goPre]

end Edk2Setup

namespace Edk2Setup

lemma compareVersionLists_21100_pos (M N P : Nat) :
    compareVersionLists [2, 11, 0] [M, N, P] > 0 ↔ (M < 2 ∨ (M = 2 ∧ N < 11)) := by
  simp only [compareVersionLists]
  split_ifs <;> constructor <;> intro h <;> omega

lemma filter_goPre (env : GitEnv) :
    (goPre env).filter Event.isRunCmd = [Event.cmd "--version" none] := by
  simp [goPre, List.filter_cons, Event.isRunCmd]

lemma Go_versionCmd_fail (env : GitEnv) (subs : List RequiredSubmodule) (ws : String)
    (force : Bool) (omni : Option String) (hv : env.runExit "--version" none ≠ 0) :
    Go env subs ws force omni =
      (.raised "RuntimeError: git --version returned a non-zero exit code",
        [Event.cmd "--version" none]) := by
  unfold Go
  dsimp only
  rw [if_pos hv]

lemma Go_tok_fail (env : GitEnv) (subs : List RequiredSubmodule) (ws : String)
    (force : Bool) (omni : Option String) (hv : env.runExit "--version" none = 0)
    (htok : (pySplit ' ' (pyStrip (env.runOutput "--version" none)))[2]? = none) :
    Go env subs ws force omni =
      (.raised "IndexError: list index out of range", goPre env) := by
  unfold Go
  dsimp only
  rw [hv, if_neg (by simp), htok]
  simp only [goPre]

lemma Go_vc_fail (env : GitEnv) (subs : List RequiredSubmodule) (ws : String)
    (force : Bool) (omni : Option String) (tok : String)
    (hv : env.runExit "--version" none = 0)
    (htok : (pySplit ' ' (pyStrip (env.runOutput "--version" none)))[2]? = some tok)
    (hcmp : version_compare min_git (pyJoin "." ((pySplit '.' tok).take 3)) = none) :
    Go env subs ws force omni =
      (.raised "ValueError: invalid literal for int", goPre env) := by
  unfold Go
  dsimp only
  rw [hv, if_neg (by simp), htok]
  dsimp only
  rw [hcmp]
  simp only [goPre]

end Edk2Setup

namespace Edk2Setup

/-- C2: for every reported version string whose third whitespace-separated
token parses (after truncation to three dotted components) as a numeric tuple
`(M, N, P)`, the run aborts at the version-check stage — raising the upgrade
error with only the version query issued and no clean/sync/fetch subprocess
call — iff the tuple is lexicographically below `(2, 11, 0)`; otherwise `Go`
returns an integer result. -/
theorem version_gate_aborts_iff_older
    (env : GitEnv) (subs : List RequiredSubmodule) (ws : String)
    (force : Bool) (omni : Option String) (tok : String) (M N P : Nat)
    (hv : env.runExit "--version" none = 0)
    (htok : (pySplit ' ' (pyStrip (env.runOutput "--version" none)))[2]? = some tok)
    (hparse : (pySplit '.' (pyJoin "." ((pySplit '.' tok).take 3))).mapM pyToNat
      = some [M, N, P]) :
    ((M < 2 ∨ (M = 2 ∧ N < 11)) →
        Go env subs ws force omni =
          (.raised ("Please upgrade Git! Current version is "
              ++ pyJoin "." ((pySplit '.' tok).take 3) ++ ". Minimum is " ++ min_git ++ "."),
            [Event.cmd "--version" none,
             Event.report "Git" (pyStrip (env.runOutput "--version" none)) VersionTypes.TOOL]))
    ∧ (¬(M < 2 ∨ (M = 2 ∧ N < 11)) →
        ∃ r : Int, (Go env subs ws force omni).1 = .ret r) := by
  have hmin : (pySplit '.' min_git).mapM pyToNat = some [2, 11, 0] := by decide
  have hcmp : version_compare min_git (pyJoin "." ((pySplit '.' tok).take 3))
      = some (compareVersionLists [2, 11, 0] [M, N, P]) := by
    unfold version_compare
    rw [hmin, hparse]
  constructor
  · intro hold
    have hpos : compareVersionLists [2, 11, 0] [M, N, P] > 0 :=
      (compareVersionLists_21100_pos M N P).mpr hold
    rw [Go_gate_fail env subs ws force omni tok _ hv htok hcmp hpos]
    rfl
  · intro hnot
    have hnpos : ¬ compareVersionLists [2, 11, 0] [M, N, P] > 0 := fun h =>
      hnot ((compareVersionLists_21100_pos M N P).mp h)
    rw [Go_gate_pass env subs ws force omni tok _ hv htok hcmp hnpos]
    cases force
    · rw [if_neg (by simp)]
      dsimp only
      exact syncAndUpdate_fst env subs ws false omni
    · rw [if_pos rfl]
      by_cases hcl : (forceCleanStage env ws subs).2 = true
      · rw [if_pos hcl]
        dsimp only
        exact syncAndUpdate_fst env subs ws true omni
      · rw [if_neg hcl]
        exact ⟨-1, rfl⟩

/-- C2 witness: with a reported version of `2.10.0` the run raises the upgrade
error right after reporting the version, issuing no further subprocess
command. -/
theorem version_gate_aborts_iff_older_witness :
    Go (envOk "git version 2.10.0") [] "ws" false none =
      (.raised "Please upgrade Git! Current version is 2.10.0. Minimum is 2.11.0.",
        [Event.cmd "--version" none,
         Event.report "Git" "git version 2.10.0" VersionTypes.TOOL]) := by
  have h := (version_gate_aborts_iff_older (envOk "git version 2.10.0") [] "ws" false none
    "2.10.0" 2 10 0 (by decide) (by decide) (by decide)).1 (Or.inr ⟨rfl, by decide⟩)
  rw [h]
  decide

end Edk2Setup

namespace Edk2Setup

/-- C1 counterexample: with the tool reporting version `2.10.0` (older than
the minimum), `Go` does not return the integer `-1` — it raises a
`RuntimeError` that propagates out of the method. -/
theorem go_version_check_raises_cex :
    (Go (envOk "git version 2.10.0") [] "ws" false none).1
        = GoOutcome.raised "Please upgrade Git! Current version is 2.10.0. Minimum is 2.11.0."
      ∧ (Go (envOk "git version 2.10.0") [] "ws" false none).1 ≠ GoOutcome.ret (-1) := by
  decide

/-- C1 (amended): every run of `Go` either returns `0` (full success), or
returns `-1` (fatal force-clean or sync failure, or accumulated per-submodule
fetch failures), or raises an exception before any clean/sync/fetch
subprocess command has been issued — the failed version check is in the
raising class, not a `-1` return. -/
theorem go_result_codes (env : GitEnv) (subs : List RequiredSubmodule) (ws : String)
    (force : Bool) (omni : Option String) :
    (Go env subs ws force omni).1 = .ret 0
    ∨ (Go env subs ws force omni).1 = .ret (-1)
    ∨ (∃ msg, (Go env subs ws force omni).1 = .raised msg
        ∧ (Go env subs ws force omni).2.filter Event.isRunCmd
            = [Event.cmd "--version" none]) := by
  by_cases hv : env.runExit "--version" none ≠ 0
  · right; right
    rw [Go_versionCmd_fail env subs ws force omni hv]
    exact ⟨_, rfl, by decide⟩
  · have hv0 : env.runExit "--version" none = 0 := not_not.mp hv
    rcases h2 : (pySplit ' ' (pyStrip (env.runOutput "--version" none)))[2]? with _ | tok
    · right; right
      rw [Go_tok_fail env subs ws force omni hv0 h2]
      exact ⟨_, rfl, filter_goPre env⟩
    · rcases h3 : version_compare min_git (pyJoin "." ((pySplit '.' tok).take 3)) with _ | c
      · right; right
        rw [Go_vc_fail env subs ws force omni tok hv0 h2 h3]
        exact ⟨_, rfl, filter_goPre env⟩
      · by_cases hc : c > 0
        · right; right
          rw [Go_gate_fail env subs ws force omni tok c hv0 h2 h3 hc]
          exact ⟨_, rfl, filter_goPre env⟩
        · rw [Go_gate_pass env subs ws force omni tok c hv0 h2 h3 hc]
          cases force
          · rw [if_neg (by simp)]
            dsimp only
            rcases syncAndUpdate_ret_cases env subs ws false omni with h | h
            · exact Or.inl h
            · exact Or.inr (Or.inl h)
          · rw [if_pos rfl]
            by_cases hcl : (forceCleanStage env ws subs).2 = true
            · rw [if_pos hcl]
              dsimp only
              rcases syncAndUpdate_ret_cases env subs ws true omni with h | h
              · exact Or.inl h
              · exact Or.inr (Or.inl h)
            · rw [if_neg hcl]
              exact Or.inr (Or.inl rfl)

/-- C3 counterexample: with an empty required-submodule list, a passing
version check (`2.30.1`), `--force` set, and a failing hard reset, `Go`
returns `-1`, not `0`. -/
theorem go_empty_list_clean_fail_cex :
    (Go (envCleanFail "git version 2.30.1") [] "ws" true none).1 = GoOutcome.ret (-1)
      ∧ (Go (envCleanFail "git version 2.30.1") [] "ws" true none).1 ≠ GoOutcome.ret 0 := by
  decide

/-- C3 (amended): given an empty required-submodule list and a passing
version check, the sync step and the per-submodule loop are skipped entirely
— no sync, diff or update/init command appears in the trace — and the result
is `0` provided the force-clean stage did not fail (in particular in every
run without `--force`). -/
theorem go_empty_list_skips (env : GitEnv) (ws : String) (force : Bool)
    (omni : Option String) (tok : String) (c : Int)
    (hv : env.runExit "--version" none = 0)
    (htok : (pySplit ' ' (pyStrip (env.runOutput "--version" none)))[2]? = some tok)
    (hcmp : version_compare min_git (pyJoin "." ((pySplit '.' tok).take 3)) = some c)
    (hc : ¬ c > 0)
    (hclean : force = true → (forceCleanStage env ws []).2 = true) :
    (Go env [] ws force omni).1 = .ret 0
    ∧ ∀ e ∈ (Go env [] ws force omni).2,
        e.isSyncCmd = false ∧ e.isDiffCmd = false ∧ e.isUpdateCmd = false := by
  rw [Go_gate_pass env [] ws force omni tok c hv htok hcmp hc]
  have hsu : ∀ f, syncAndUpdate env [] ws f omni = (.ret 0, []) := fun _ => rfl
  cases force
  · rw [if_neg (by simp), hsu false]
    refine ⟨rfl, ?_⟩
    intro e he
    dsimp only at he
    rw [List.append_nil] at he
    simp only [goPre, List.mem_cons, List.not_mem_nil, or_false] at he
    rcases he with h | h <;> subst h <;> exact ⟨rfl, rfl, rfl⟩
  · rw [if_pos rfl, if_pos (hclean rfl), hsu true]
    refine ⟨rfl, ?_⟩
    intro e he
    dsimp only at he
    rw [List.append_nil] at he
    rcases List.mem_append.mp he with h | h
    · simp only [goPre, List.mem_cons, List.not_mem_nil, or_false] at h
      rcases h with h | h <;> subst h <;> exact ⟨rfl, rfl, rfl⟩
    · rcases forceCleanStage_events env ws [] e h with h1 | h1 | h1
      · subst h1; exact ⟨rfl, rfl, rfl⟩
      · subst h1; exact ⟨rfl, rfl, rfl⟩
      · obtain ⟨sm, hmem, _⟩ := h1
        simp at hmem

/-- C3 witness: an empty-list forced run in a world where every command
succeeds returns `0`. -/
theorem go_empty_list_skips_witness :
    (Go (envOk "git version 2.30.1") [] "ws" true none).1 = GoOutcome.ret 0 := by
  exact (go_empty_list_skips (envOk "git version 2.30.1") "ws" true none "2.30.1" (-1)
    (by decide) (by decide) (by decide) (by decide) (fun _ => by decide)).1

end Edk2Setup

namespace Edk2Setup

/-- C4: with `force` false, a submodule whose resolved path exists and whose
working-tree diff is non-empty is skipped — its loop iteration issues only the
diff command, no update/init, and contributes `0`; a single-submodule run in
this situation still returns `0`, issuing only the version query, the sync
command and the diff. -/
theorem dirty_submodule_skipped (env : GitEnv) (ws : String) (omni : Option String)
    (sm : RequiredSubmodule) (tok : String) (c : Int)
    (hex : env.pathExists (resolveSubmodulePath ws sm.path) = true)
    (hdiffexit : env.runExit ("diff " ++ sm.path) (some ws) = 0)
    (hdirty : pyStrip (env.runOutput ("diff " ++ sm.path) (some ws)) ≠ "")
    (hv : env.runExit "--version" none = 0)
    (htok : (pySplit ' ' (pyStrip (env.runOutput "--version" none)))[2]? = some tok)
    (hcmp : version_compare min_git (pyJoin "." ((pySplit '.' tok).take 3)) = some c)
    (hc : ¬ c > 0)
    (hsync : env.runExit ("submodule sync -- " ++ sm.path) (some ws) = 0) :
    processSubmodule env ws false omni sm = ([Event.cmd ("diff " ++ sm.path) (some ws)], 0)
    ∧ Go env [sm] ws false omni =
        (.ret 0, goPre env ++ [Event.cmd ("submodule sync -- " ++ sm.path) (some ws),
                               Event.cmd ("diff " ++ sm.path) (some ws)]) := by
  have hps : processSubmodule env ws false omni sm
      = ([Event.cmd ("diff " ++ sm.path) (some ws)], 0) := by
    unfold processSubmodule fetchStep
    dsimp only
    rw [hex]
    simp only [Bool.not_false, Bool.and_true, if_true]
    rw [if_neg (by simp [hdiffexit])]
    have hskip : (pyStrip (env.runOutput ("diff " ++ sm.path) (some ws)) != "") = true :=
      bne_iff_ne.mpr hdirty
    rw [hskip]
    simp only [Bool.not_true, Bool.false_or, Bool.false_eq_true, if_false]
  refine ⟨hps, ?_⟩
  have hup : updateSubmodules env ws false omni [sm] 0
      = ([Event.cmd ("diff " ++ sm.path) (some ws)], 0) := by
    simp [updateSubmodules, hps]
  have hsu : syncAndUpdate env [sm] ws false omni
      = (.ret 0, [Event.cmd ("submodule sync -- " ++ sm.path) (some ws),
                  Event.cmd ("diff " ++ sm.path) (some ws)]) := by
    unfold syncAndUpdate
    dsimp only
    rw [if_pos (by simp)]
    simp only [List.map_cons, List.map_nil, pyJoin]
    rw [if_neg (by simp [hsync]), hup]
  rw [Go_gate_pass env [sm] ws false omni tok c hv htok hcmp hc]
  rw [if_neg (by simp), hsu]

/-- C4 witness: in a world where the submodule exists and its diff is
non-empty, the single-submodule run returns `0` even though no fetch was
issued. -/
theorem dirty_submodule_skipped_witness :
    (Go (envDirty "git version 2.30.1") [⟨"Common/MU", true⟩] "ws" false none).1
      = GoOutcome.ret 0 := by
  have h := (dirty_submodule_skipped (envDirty "git version 2.30.1") "ws" none
    ⟨"Common/MU", true⟩ "2.30.1" (-1) (by decide) (by decide) (by decide) (by decide)
    (by decide) (by decide) (by decide) (by decide)).2
  rw [h]

end Edk2Setup

namespace Edk2Setup

lemma forceCleanStage_ok (env : GitEnv) (ws : String) (subs : List RequiredSubmodule)
    (h : (forceCleanStage env ws subs).2 = true) :
    (forceCleanStage env ws subs).1
      = Event.cmd "reset --hard" (some ws)
        :: Event.cmd ("clean -xffd " ++ ignore_files) (some ws)
        :: (cleanSubmodules env ws subs).1
    ∧ (cleanSubmodules env ws subs).2 = true := by
  unfold forceCleanStage at h ⊢
  dsimp only at h ⊢
  by_cases h1 : env.runExit "reset --hard" (some ws) ≠ 0
  · rw [if_pos h1] at h
    simp at h
  · rw [if_neg h1] at h ⊢
    by_cases h2 : env.runExit ("clean -xffd " ++ ignore_files) (some ws) ≠ 0
    · rw [if_pos h2] at h
      simp at h
    · rw [if_neg h2] at h ⊢
      exact ⟨rfl, h⟩

lemma syncAndUpdate_events (env : GitEnv) (subs : List RequiredSubmodule) (ws : String)
    (f : Bool) (o : Option String) :
    ∀ e ∈ (syncAndUpdate env subs ws f o).2,
      e = Event.cmd ("submodule sync -- " ++ pyJoin " " (subs.map fun x => x.path)) (some ws)
      ∨ ∃ sm, sm ∈ subs
          ∧ (e = Event.cmd ("diff " ++ sm.path) (some ws)
             ∨ e = Event.cmd (fetchCmdString o sm) (some ws)) := by
  intro e he
  unfold syncAndUpdate at he
  dsimp only at he
  split at he
  · split at he
    · simp at he
      exact Or.inl he
    · rcases List.mem_cons.mp he with h | h
      · exact Or.inl h
      · rw [updateSubmodules_events] at h
        obtain ⟨blk, hblk, hin⟩ := List.mem_flatten.mp h
        obtain ⟨sm, hmem, hb⟩ := List.mem_map.mp hblk
        subst hb
        exact Or.inr ⟨sm, hmem, processSubmodule_events env ws f o sm e hin⟩
  · simp at he

lemma Go_events (env : GitEnv) (subs : List RequiredSubmodule) (ws : String)
    (force : Bool) (omni : Option String) :
    ∀ e ∈ (Go env subs ws force omni).2,
      e = Event.cmd "--version" none
      ∨ (∃ v, e = Event.report "Git" v VersionTypes.TOOL)
      ∨ e = Event.cmd "reset --hard" (some ws)
      ∨ e = Event.cmd ("clean -xffd " ++ ignore_files) (some ws)
      ∨ (∃ sm, sm ∈ subs
          ∧ (e = Event.cmd "reset --hard" (some (resolveSubmodulePath ws sm.path))
             ∨ e = Event.cmd "clean -xffd" (some (resolveSubmodulePath ws sm.path))))
      ∨ e = Event.cmd ("submodule sync -- " ++ pyJoin " " (subs.map fun x => x.path)) (some ws)
      ∨ (∃ sm, sm ∈ subs
          ∧ (e = Event.cmd ("diff " ++ sm.path) (some ws)
             ∨ e = Event.cmd (fetchCmdString omni sm) (some ws))) := by
  have hpre : ∀ e ∈ goPre env,
      e = Event.cmd "--version" none ∨ ∃ v, e = Event.report "Git" v VersionTypes.TOOL := by
    intro e he
    simp only [goPre, List.mem_cons, List.not_mem_nil, or_false] at he
    rcases he with h | h
    · exact Or.inl h
    · exact Or.inr ⟨_, h⟩
  have hfc : ∀ e ∈ (forceCleanStage env ws subs).1,
      e = Event.cmd "--version" none
      ∨ (∃ v, e = Event.report "Git" v VersionTypes.TOOL)
      ∨ e = Event.cmd "reset --hard" (some ws)
      ∨ e = Event.cmd ("clean -xffd " ++ ignore_files) (some ws)
      ∨ (∃ sm, sm ∈ subs
          ∧ (e = Event.cmd "reset --hard" (some (resolveSubmodulePath ws sm.path))
             ∨ e = Event.cmd "clean -xffd" (some (resolveSubmodulePath ws sm.path))))
      ∨ e = Event.cmd ("submodule sync -- " ++ pyJoin " " (subs.map fun x => x.path)) (some ws)
      ∨ (∃ sm, sm ∈ subs
          ∧ (e = Event.cmd ("diff " ++ sm.path) (some ws)
             ∨ e = Event.cmd (fetchCmdString omni sm) (some ws))) := by
    intro e he
    rcases forceCleanStage_events env ws subs e he with h | h | h
    · exact Or.inr (Or.inr (Or.inl h))
    · exact Or.inr (Or.inr (Or.inr (Or.inl h)))
    · exact Or.inr (Or.inr (Or.inr (Or.inr (Or.inl h))))
  have hsu : ∀ e ∈ (syncAndUpdate env subs ws force omni).2,
      e = Event.cmd ("submodule sync -- " ++ pyJoin " " (subs.map fun x => x.path)) (some ws)
      ∨ ∃ sm, sm ∈ subs
          ∧ (e = Event.cmd ("diff " ++ sm.path) (some ws)
             ∨ e = Event.cmd (fetchCmdString omni sm) (some ws)) :=
    syncAndUpdate_events env subs ws force omni
  intro e he
  by_cases hv : env.runExit "--version" none ≠ 0
  · rw [Go_versionCmd_fail env subs ws force omni hv] at he
    simp only [List.mem_cons, List.not_mem_nil, or_false] at he
    exact Or.inl he
  · have hv0 : env.runExit "--version" none = 0 := not_not.mp hv
    rcases h2 : (pySplit ' ' (pyStrip (env.runOutput "--version" none)))[2]? with _ | tok
    · rw [Go_tok_fail env subs ws force omni hv0 h2] at he
      rcases hpre e he with h | h
      · exact Or.inl h
      · exact Or.inr (Or.inl h)
    · rcases h3 : version_compare min_git (pyJoin "." ((pySplit '.' tok).take 3)) with _ | c
      · rw [Go_vc_fail env subs ws force omni tok hv0 h2 h3] at he
        rcases hpre e he with h | h
        · exact Or.inl h
        · exact Or.inr (Or.inl h)
      · by_cases hcgt : c > 0
        · rw [Go_gate_fail env subs ws force omni tok c hv0 h2 h3 hcgt] at he
          rcases hpre e he with h | h
          · exact Or.inl h
          · exact Or.inr (Or.inl h)
        · rw [Go_gate_pass env subs ws force omni tok c hv0 h2 h3 hcgt] at he
          cases force
          · rw [if_neg (by simp)] at he
            dsimp only at he
            rcases List.mem_append.mp he with h | h
            · rcases hpre e h with h1 | h1
              · exact Or.inl h1
              · exact Or.inr (Or.inl h1)
            · rcases hsu e h with h1 | h1
              · exact Or.inr (Or.inr (Or.inr (Or.inr (Or.inr (Or.inl h1)))))
              · exact Or.inr (Or.inr (Or.inr (Or.inr (Or.inr (Or.inr h1)))))
          · rw [if_pos rfl] at he
            by_cases hcl : (forceCleanStage env ws subs).2 = true
            · rw [if_pos hcl] at he
              dsimp only at he
              rcases List.mem_append.mp he with h | h
              · rcases List.mem_append.mp h with hq | hq
                · rcases hpre e hq with h1 | h1
                  · exact Or.inl h1
                  · exact Or.inr (Or.inl h1)
                · exact hfc e hq
              · rcases hsu e h with h1 | h1
                · exact Or.inr (Or.inr (Or.inr (Or.inr (Or.inr (Or.inl h1)))))
                · exact Or.inr (Or.inr (Or.inr (Or.inr (Or.inr (Or.inr h1)))))
            · rw [if_neg hcl] at he
              dsimp only at he
              rcases List.mem_append.mp he with h | h
              · rcases hpre e h with h1 | h1
                · exact Or.inl h1
                · exact Or.inr (Or.inl h1)
              · exact hfc e h

end Edk2Setup

namespace Edk2Setup

/-- C5: in a forced run whose clean and sync stages succeed, the trace splits
into a first part containing the force-clean commands (the excluded root clean
and a clean of every required submodule path) with no fetch in it, and a
second part containing a fetch (update/init) command for every required
submodule, regardless of dirty state or existence, with no clean in it: the
force-clean stage completes before any fetch is issued. -/
theorem force_fetches_all_after_clean (env : GitEnv) (subs : List RequiredSubmodule)
    (ws : String) (omni : Option String) (tok : String) (c : Int)
    (hv : env.runExit "--version" none = 0)
    (htok : (pySplit ' ' (pyStrip (env.runOutput "--version" none)))[2]? = some tok)
    (hcmp : version_compare min_git (pyJoin "." ((pySplit '.' tok).take 3)) = some c)
    (hc : ¬ c > 0)
    (hclean : (forceCleanStage env ws subs).2 = true)
    (hsync : env.runExit ("submodule sync -- " ++ pyJoin " " (subs.map fun x => x.path))
      (some ws) = 0) :
    ∃ t1 t2, (Go env subs ws true omni).2 = t1 ++ t2
      ∧ (∀ e ∈ t1, e.isUpdateCmd = false)
      ∧ (∀ e ∈ t2, e.isCleanCmd = false)
      ∧ Event.cmd ("clean -xffd " ++ ignore_files) (some ws) ∈ t1
      ∧ (∀ sm ∈ subs,
          Event.cmd "clean -xffd" (some (resolveSubmodulePath ws sm.path)) ∈ t1)
      ∧ (∀ sm ∈ subs, Event.cmd (fetchCmdString omni sm) (some ws) ∈ t2) := by
  obtain ⟨hcleanEv, hcsub⟩ := forceCleanStage_ok env ws subs hclean
  refine ⟨goPre env ++ (forceCleanStage env ws subs).1,
    (syncAndUpdate env subs ws true omni).2, ?_, ?_, ?_, ?_, ?_, ?_⟩
  · rw [Go_gate_pass env subs ws true omni tok c hv htok hcmp hc]
    rw [if_pos rfl, if_pos hclean]
  · intro e he
    rcases List.mem_append.mp he with h | h
    · simp only [goPre, List.mem_cons, List.not_mem_nil, or_false] at h
      rcases h with h | h <;> subst h <;> rfl
    · rcases forceCleanStage_events env ws subs e h with h1 | h1 | h1
      · subst h1; rfl
      · subst h1; rfl
      · obtain ⟨sm, _, h2 | h2⟩ := h1 <;> subst h2 <;> rfl
  · intro e he
    rcases syncAndUpdate_events env subs ws true omni e he with h | ⟨sm, _, h | h⟩
    · subst h; exact isCleanCmd_sync _ _
    · subst h; exact isCleanCmd_diff _ _
    · subst h; exact isCleanCmd_fetch omni sm _
  · refine List.mem_append.mpr (Or.inr ?_)
    rw [hcleanEv]
    simp
  · intro sm hmem
    refine List.mem_append.mpr (Or.inr ?_)
    rw [hcleanEv]
    exact List.mem_cons_of_mem _ (List.mem_cons_of_mem _ (cleanSubmodules_mem env ws subs hcsub sm hmem))
  · intro sm hmem
    unfold syncAndUpdate
    dsimp only
    rw [if_pos (by cases subs with | nil => simp at hmem | cons a l => simp)]
    rw [if_neg (by simp [hsync])]
    refine List.mem_cons_of_mem _ ?_
    rw [updateSubmodules_events]
    refine List.mem_flatten.mpr ⟨(processSubmodule env ws true omni sm).1,
      List.mem_map_of_mem _ hmem, ?_⟩
    rw [processSubmodule_force]
    simp

/-- C5 witness: in a forced run over one submodule in a world where every
command succeeds, the fetch command for that submodule appears in the trace. -/
theorem force_fetches_all_after_clean_witness :
    Event.cmd (fetchCmdString none ⟨"Common/MU", true⟩) (some "ws")
      ∈ (Go (envOk "git version 2.30.1") [⟨"Common/MU", true⟩] "ws" true none).2 := by
  obtain ⟨t1, t2, heq, _, _, _, _, hfetch⟩ :=
    force_fetches_all_after_clean (envOk "git version 2.30.1") [⟨"Common/MU", true⟩]
      "ws" none "2.30.1" (-1) (by decide) (by decide) (by decide) (by decide)
      (by decide) (by decide)
  rw [heq]
  exact List.mem_append.mpr (Or.inr (hfetch _ (by simp)))

end Edk2Setup

namespace Edk2Setup

/-- C6: if an entry `A` that precedes an entry `B` in the required-submodule
list fails its fetch (non-zero exit; here `A` is absent on disk so its fetch
is always attempted), then the loop still processes `B` — the fetch command
for `B` is issued — and the accumulated result of the loop is `-1`. -/
theorem fetch_failure_isolated (env : GitEnv) (ws : String) (omni : Option String)
    (force : Bool) (l1 l2 l3 : List RequiredSubmodule) (A B : RequiredSubmodule)
    (hA : env.pathExists (resolveSubmodulePath ws A.path) = false)
    (hAfail : env.runExit (fetchCmdString omni A) (some ws) ≠ 0)
    (hB : env.pathExists (resolveSubmodulePath ws B.path) = false) :
    (updateSubmodules env ws force omni (l1 ++ A :: (l2 ++ B :: l3)) 0).2 = -1
    ∧ Event.cmd (fetchCmdString omni B) (some ws)
        ∈ (updateSubmodules env ws force omni (l1 ++ A :: (l2 ++ B :: l3)) 0).1 := by
  have hprocA : (processSubmodule env ws force omni A).2 = -1 := by
    unfold processSubmodule fetchStep
    dsimp only
    rw [hA]
    simp only [Bool.false_and, Bool.false_eq_true, if_false, Bool.not_false, Bool.true_or,
      if_true]
    rw [if_pos hAfail]
  have hprocB : (processSubmodule env ws force omni B).1
      = [Event.cmd (fetchCmdString omni B) (some ws)] := by
    unfold processSubmodule fetchStep
    dsimp only
    rw [hB]
    simp only [Bool.false_and, Bool.false_eq_true, if_false, Bool.not_false, Bool.true_or,
      if_true]
    split <;> rfl
  constructor
  · rw [updateSubmodules_result]
    rw [if_pos ?_]
    refine List.any_eq_true.mpr ⟨A, ?_, ?_⟩
    · simp
    · rw [hprocA]
      decide
  · rw [updateSubmodules_events]
    refine List.mem_flatten.mpr ⟨(processSubmodule env ws force omni B).1,
      List.mem_map_of_mem _ (by simp), ?_⟩
    rw [hprocB]
    simp

/-- C6 witness: with two submodules, the first absent and failing its fetch,
the loop result is `-1` and the second submodule's fetch command was still
issued. -/
theorem fetch_failure_isolated_witness :
    (updateSubmodules (envFetchFail "git version 2.30.1" "Common/MU") "ws" false none
        [⟨"Common/MU", true⟩, ⟨"Silicon/X", true⟩] 0).2 = -1
    ∧ Event.cmd (fetchCmdString none ⟨"Silicon/X", true⟩) (some "ws")
        ∈ (updateSubmodules (envFetchFail "git version 2.30.1" "Common/MU") "ws" false none
            [⟨"Common/MU", true⟩, ⟨"Silicon/X", true⟩] 0).1 :=
  fetch_failure_isolated (envFetchFail "git version 2.30.1" "Common/MU") "ws" none false
    [] [] [] ⟨"Common/MU", true⟩ ⟨"Silicon/X", true⟩ (by decide) (by decide) (by decide)

/-- C7: the per-submodule loop never lets a failure escape: its event trace is
exactly the concatenation of every entry's events (so a failing entry does not
stop the processing of later entries), its result is `-1` exactly when some
entry's handler recorded a failure and `0` otherwise, and the whole sync-plus-
loop section of `Go` always returns an integer result rather than raising. -/
theorem loop_isolates_and_records (env : GitEnv) (ws : String) (force : Bool)
    (omni : Option String) (subs : List RequiredSubmodule) :
    (updateSubmodules env ws force omni subs 0).1
        = (subs.map fun sm => (processSubmodule env ws force omni sm).1).flatten
    ∧ (updateSubmodules env ws force omni subs 0).2
        = (if subs.any (fun sm => (processSubmodule env ws force omni sm).2 != 0)
           then -1 else 0)
    ∧ ∃ r : Int, (syncAndUpdate env subs ws force omni).1 = .ret r :=
  ⟨updateSubmodules_events env ws force omni subs 0,
   updateSubmodules_result env ws force omni subs 0,
   syncAndUpdate_fst env subs ws force omni⟩

end Edk2Setup

namespace Edk2Setup

/-- C8: an omnicache argument naming a non-existent path is downgraded at
configuration time to an unset omnicache with a warning (no fatal error);
the fetch command string carries no `--reference` segment when the omnicache
is unset and carries `--reference <path>` when it is set; and every fetch
command issued anywhere in a run is built by `fetchCmdString` from the run's
omnicache setting. -/
theorem omnicache_controls_reference (env : GitEnv) (subs : List RequiredSubmodule)
    (ws : String) (force : Bool) (omni : Option String) :
    (∀ (f : Bool) (p : String), env.pathExists p = false →
        RetrieveCommandLineOptions env ⟨f, some p⟩ = ⟨f, none, true⟩)
    ∧ (∀ sm : RequiredSubmodule, fetchCmdString none sm
        = (if sm.recursive then "submodule update --init --recursive --progress "
           else "submodule update --init --progress ") ++ sm.path)
    ∧ (∀ (p : String) (sm : RequiredSubmodule), fetchCmdString (some p) sm
        = (((if sm.recursive then "submodule update --init --recursive --progress --reference "
             else "submodule update --init --progress --reference ") ++ p) ++ " ") ++ sm.path)
    ∧ (∀ e ∈ (Go env subs ws force omni).2, e.isUpdateCmd = true →
        ∃ sm, sm ∈ subs ∧ e = Event.cmd (fetchCmdString omni sm) (some ws)) := by
  refine ⟨?_, ?_, ?_, ?_⟩
  · intro f p hp
    unfold RetrieveCommandLineOptions
    dsimp only
    rw [hp]
    rfl
  · intro sm
    cases hrec : sm.recursive
    · rw [fetchCmdString_none_norec sm hrec, if_neg (by simp [hrec])]
    · rw [fetchCmdString_none_rec sm hrec]
      simp
  · intro p sm
    cases hrec : sm.recursive
    · rw [fetchCmdString_some_norec p sm hrec, if_neg (by simp [hrec])]
    · rw [fetchCmdString_some_rec p sm hrec]
      simp
  · intro e he hupd
    rcases Go_events env subs ws force omni e he with
      h | ⟨v, h⟩ | h | h | ⟨sm, _, h | h⟩ | h | ⟨sm, hmem, h | h⟩
    · subst h; exact absurd hupd (by decide)
    · subst h; exact absurd hupd (by simp [Event.isUpdateCmd])
    · subst h; exact absurd hupd (by simp [show (Event.cmd "reset --hard" (some ws)).isUpdateCmd = false from rfl])
    · subst h
      exact absurd hupd
        (by simp [show (Event.cmd ("clean -xffd " ++ ignore_files) (some ws)).isUpdateCmd
          = false from rfl])
    · subst h
      exact absurd hupd (by simp [show (Event.cmd "reset --hard"
        (some (resolveSubmodulePath ws sm.path))).isUpdateCmd = false from rfl])
    · subst h
      exact absurd hupd (by simp [show (Event.cmd "clean -xffd"
        (some (resolveSubmodulePath ws sm.path))).isUpdateCmd = false from rfl])
    · subst h
      exact absurd hupd (by simp [isUpdateCmd_sync])
    · subst h
      exact absurd hupd (by simp [isUpdateCmd_diff])
    · subst h
      exact ⟨sm, hmem, rfl⟩

/-- C8 witness: a non-existent omnicache path is dropped with a warning, and
the fetch command for a recursive submodule with no omnicache is exactly the
reference-free command string. -/
theorem omnicache_controls_reference_witness :
    RetrieveCommandLineOptions (envFetchFail "git version 2.30.1" "X") ⟨true, some "/bad"⟩
        = ⟨true, none, true⟩
    ∧ fetchCmdString none ⟨"Common/MU", true⟩
        = "submodule update --init --recursive --progress " ++ "Common/MU" := by
  have h := omnicache_controls_reference (envFetchFail "git version 2.30.1" "X") [] "ws"
    false none
  refine ⟨h.1 true "/bad" (by decide), ?_⟩
  rw [h.2.1 ⟨"Common/MU", true⟩]
  decide

end Edk2Setup

namespace Edk2Setup

/-- C9: in every forced run whose root hard reset succeeds, the clean command
issued for the workspace root carries the `-e` exclusions for both log-file
variants derived from the fixed logging base identifier (`SETUPLOG`), and any
clean command in the whole trace whose working directory is the workspace root
is exactly that excluded clean. -/
theorem root_clean_excludes_log_files (env : GitEnv) (subs : List RequiredSubmodule)
    (ws : String) (omni : Option String) (tok : String) (c : Int)
    (hv : env.runExit "--version" none = 0)
    (htok : (pySplit ' ' (pyStrip (env.runOutput "--version" none)))[2]? = some tok)
    (hcmp : version_compare min_git (pyJoin "." ((pySplit '.' tok).take 3)) = some c)
    (hc : ¬ c > 0)
    (hreset : env.runExit "reset --hard" (some ws) = 0) :
    Event.cmd ("clean -xffd " ++ ignore_files) (some ws) ∈ (Go env subs ws true omni).2
    ∧ "clean -xffd " ++ ignore_files
        = "clean -xffd -e Build/" ++ GetLoggingFileName "txt" ++ ".txt -e Build/"
          ++ GetLoggingFileName "md" ++ ".md"
    ∧ "clean -xffd " ++ ignore_files = "clean -xffd -e Build/SETUPLOG.txt -e Build/SETUPLOG.md"
    ∧ ∀ e ∈ (Go env subs ws true omni).2, e.isCleanCmd = true → e.workdir = some ws →
        e = Event.cmd ("clean -xffd " ++ ignore_files) (some ws) := by
  refine ⟨?_, by decide, by decide, ?_⟩
  · rw [Go_gate_pass env subs ws true omni tok c hv htok hcmp hc, if_pos rfl]
    by_cases hcl : (forceCleanStage env ws subs).2 = true
    · rw [if_pos hcl]
      dsimp only
      exact List.mem_append.mpr (Or.inl (List.mem_append.mpr
        (Or.inr (forceCleanStage_cleanRoot_mem env ws subs hreset))))
    · rw [if_neg hcl]
      dsimp only
      exact List.mem_append.mpr (Or.inr (forceCleanStage_cleanRoot_mem env ws subs hreset))
  · intro e he hcln hwd
    rcases Go_events env subs ws true omni e he with
      h | ⟨v, h⟩ | h | h | ⟨sm, _, h | h⟩ | h | ⟨sm, _, h | h⟩
    · subst h; exact absurd hcln (by decide)
    · subst h; exact absurd hcln (by simp [Event.isCleanCmd])
    · subst h
      exact absurd hcln
        (by simp [show (Event.cmd "reset --hard" (some ws)).isCleanCmd = false from rfl])
    · subst h; rfl
    · subst h
      exact absurd hcln (by simp [show (Event.cmd "reset --hard"
        (some (resolveSubmodulePath ws sm.path))).isCleanCmd = false from rfl])
    · subst h
      have : resolveSubmodulePath ws sm.path = ws := Option.some.inj hwd
      exact absurd this (resolveSubmodulePath_ne ws sm.path)
    · subst h; exact absurd hcln (by simp [isCleanCmd_sync])
    · subst h; exact absurd hcln (by simp [isCleanCmd_diff])
    · subst h; exact absurd hcln (by simp [isCleanCmd_fetch])

/-- C9 witness: in a forced run over an empty list with every command
succeeding, the excluded root clean naming both `SETUPLOG` files is issued. -/
theorem root_clean_excludes_log_files_witness :
    Event.cmd "clean -xffd -e Build/SETUPLOG.txt -e Build/SETUPLOG.md" (some "ws")
      ∈ (Go (envOk "git version 2.30.1") [] "ws" true none).2 := by
  have h := root_clean_excludes_log_files (envOk "git version 2.30.1") [] "ws" none
    "2.30.1" (-1) (by decide) (by decide) (by decide) (by decide) (by decide)
  have h1 := h.1
  rw [h.2.2.1] at h1
  exact h1

end Edk2Setup

namespace Edk2Setup

lemma filterReport_goPre (env : GitEnv) :
    (goPre env).filter Event.isReport
      = [Event.report "Git" (pyStrip (env.runOutput "--version" none)) VersionTypes.TOOL] := by
  simp [goPre, List.filter_cons, Event.isReport]

lemma filterReport_fc (env : GitEnv) (ws : String) (subs : List RequiredSubmodule) :
    (forceCleanStage env ws subs).1.filter Event.isReport = [] := by
  rw [List.filter_eq_nil_iff]
  intro e he
  rcases forceCleanStage_events env ws subs e he with h | h | ⟨sm, _, h | h⟩ <;>
    subst h <;> simp [Event.isReport]

lemma filterReport_su (env : GitEnv) (subs : List RequiredSubmodule) (ws : String)
    (f : Bool) (o : Option String) :
    (syncAndUpdate env subs ws f o).2.filter Event.isReport = [] := by
  rw [List.filter_eq_nil_iff]
  intro e he
  rcases syncAndUpdate_events env subs ws f o e he with h | ⟨sm, _, h | h⟩ <;>
    subst h <;> simp [Event.isReport]

/-- C10: in every run whose version query succeeds, the first two trace events
are the version query and the `ReportVersion` call (name `Git`, category
`TOOL`) — so the report happens before the minimum-version comparison and
before any further command — and the whole trace contains exactly that one
report, also in runs that abort for an unsupported version. -/
theorem version_reported_before_gate (env : GitEnv) (subs : List RequiredSubmodule)
    (ws : String) (force : Bool) (omni : Option String)
    (hv : env.runExit "--version" none = 0) :
    (Go env subs ws force omni).2.take 2
        = [Event.cmd "--version" none,
           Event.report "Git" (pyStrip (env.runOutput "--version" none)) VersionTypes.TOOL]
    ∧ (Go env subs ws force omni).2.filter Event.isReport
        = [Event.report "Git" (pyStrip (env.runOutput "--version" none)) VersionTypes.TOOL] := by
  rcases h2 : (pySplit ' ' (pyStrip (env.runOutput "--version" none)))[2]? with _ | tok
  · rw [Go_tok_fail env subs ws force omni hv h2]
    exact ⟨rfl, filterReport_goPre env⟩
  · rcases h3 : version_compare min_git (pyJoin "." ((pySplit '.' tok).take 3)) with _ | c
    · rw [Go_vc_fail env subs ws force omni tok hv h2 h3]
      exact ⟨rfl, filterReport_goPre env⟩
    · by_cases hcgt : c > 0
      · rw [Go_gate_fail env subs ws force omni tok c hv h2 h3 hcgt]
        exact ⟨rfl, filterReport_goPre env⟩
      · rw [Go_gate_pass env subs ws force omni tok c hv h2 h3 hcgt]
        cases force
        · rw [if_neg (by simp)]
          dsimp only
          refine ⟨rfl, ?_⟩
          rw [List.filter_append, filterReport_goPre, filterReport_su, List.append_nil]
        · rw [if_pos rfl]
          by_cases hcl : (forceCleanStage env ws subs).2 = true
          · rw [if_pos hcl]
            dsimp only
            refine ⟨rfl, ?_⟩
            rw [List.filter_append, List.filter_append, filterReport_goPre, filterReport_fc,
              filterReport_su, List.append_nil, List.append_nil]
          · rw [if_neg hcl]
            dsimp only
            refine ⟨rfl, ?_⟩
            rw [List.filter_append, filterReport_goPre, filterReport_fc, List.append_nil]

/-- C10 witness: a run aborting for the unsupported version `2.10.0` still
contains exactly one report, placed immediately after the version query. -/
theorem version_reported_before_gate_witness :
    (Go (envOk "git version 2.10.0") [] "ws" false none).2.filter Event.isReport
      = [Event.report "Git" "git version 2.10.0" VersionTypes.TOOL] := by
  have h := (version_reported_before_gate (envOk "git version 2.10.0") [] "ws" false none
    (by decide)).2
  rw [h]
  decide

end Edk2Setup
